import Mathlib

/-!
Verification development for a Redis-clone server written in Go
(repository `r0ld3x/redis-clone-go`).

Shallow embedding conventions:
* Go strings are Lean `String`s; `len(s)` is the byte length `goLen`.
* `time.Time` instants are integer milliseconds (`Int`); `a.After(b)` is `a > b`.
  The keyspace always adds TTLs in milliseconds to such instants, so integer
  milliseconds are exactly the granularity the code distinguishes.
* The global `sync.Map` keyspace (`database.DB`) is an association list with
  replace-on-store semantics; each operation that in Go mutates the map is a
  function from the old keyspace (plus the current instant) to the new one.
* `net.Conn` writes are collected into a `List String` of emitted reply frames,
  and `ReplicateCommand`/`WriteArray` calls toward replicas into a
  `List (List String)` of command argument vectors.
* Go's multiple return values `(v, ok)` become pairs; `error` returns become
  `Except String`.
-/

namespace RedisClone

/-- A single quote character, used to build error-message literals. -/
def sq : String := (Char.ofNat 39).toString

/-! ### Go standard library helpers -/

/-- Largest value of Go's `int64`. -/
def maxInt64 : Int := 9223372036854775807

/-- Smallest value of Go's `int64`. -/
def minInt64 : Int := -9223372036854775808

/-- Reads a non-empty run of decimal digits; `none` on any other input. -/
def digitsToNat : List Char → Option Nat
  | [] => none
  | cs => cs.foldlM (fun acc c => if c.isDigit then some (acc * 10 + (c.toNat - 48)) else none) 0

/-- Go `strconv.ParseInt(s, 10, 64)` (also `strconv.Atoi` on a 64-bit platform):
    optional sign, then decimal digits.  Returns `(value, err == nil)`.  On a
    syntax error the value is 0; on range error it is clamped to
    `MaxInt64`/`MinInt64`, as in Go. -/
def parseIntGo (s : String) : Int × Bool :=
  let p : Bool × List Char :=
    match s.data with
    | '-' :: r => (true, r)
    | '+' :: r => (false, r)
    | r => (false, r)
  match digitsToNat p.2 with
  | none => (0, false)
  | some n =>
    let v : Int := if p.1 then -(n : Int) else (n : Int)
    if v > maxInt64 then (maxInt64, false)
    else if v < minInt64 then (minInt64, false)
    else (v, true)

/-- Go `strconv.Atoi`. -/
def atoiGo (s : String) : Int × Bool := parseIntGo s

/-- Go `len(s)`: the byte length of the string. -/
def goLen (s : String) : Nat := s.data.foldl (fun n c => n + c.utf8Size) 0

/-- Go `strings.ToUpper` (the commands use only ASCII names, where Go's
    Unicode-aware uppercasing and per-character ASCII uppercasing agree). -/
def toUpperGo (s : String) : String := String.mk (s.data.map Char.toUpper)

/-- Splitting a character list at every occurrence of `sep`. -/
def splitOnChar (sep : Char) : List Char → List (List Char)
  | [] => [[]]
  | c :: rest =>
    let r := splitOnChar sep rest
    if c = sep then [] :: r
    else
      match r with
      | h :: t => (c :: h) :: t
      | [] => [[c]]

/-- Go `strings.Split(s, "-")`. -/
def splitOnDash (s : String) : List String := (splitOnChar '-' s.data).map String.mk

/-- Go `strings.HasSuffix(s, "-*")`. -/
def hasDashStarSuffix (s : String) : Bool :=
  match s.data.reverse with
  | '*' :: '-' :: _ => true
  | _ => false

/-- Go `strings.TrimSuffix(s, "-*")` on a string that has the suffix. -/
def trimDashStarSuffix (s : String) : String :=
  String.mk (s.data.take (s.data.length - 2))

/-- Whether Go `strconv.ParseFloat(s, 64)` succeeds: optional sign, then either
    `inf`/`infinity`/`nan` (any case) or a decimal mantissa with at least one
    digit and an optional `e`/`E` exponent.  (Hexadecimal float syntax is not
    modelled; no stored value in this development uses it.) -/
def floatSyntaxOk (s : String) : Bool :=
  let cs : List Char :=
    match s.data with
    | '-' :: r => r
    | '+' :: r => r
    | r => r
  let lower := (cs.map Char.toLower)
  if lower = "inf".data ∨ lower = "infinity".data ∨ lower = "nan".data then true
  else
    let intPart := cs.takeWhile Char.isDigit
    let rest1 := cs.dropWhile Char.isDigit
    let (fracPart, rest2) :=
      match rest1 with
      | '.' :: r => (r.takeWhile Char.isDigit, r.dropWhile Char.isDigit)
      | r => ([], r)
    if intPart.length + fracPart.length = 0 then false
    else
      match rest2 with
      | [] => true
      | e :: r =>
        if e = 'e' ∨ e = 'E' then
          let r' : List Char :=
            match r with
            | '-' :: r2 => r2
            | '+' :: r2 => r2
            | r2 => r2
          r' ≠ [] ∧ r'.all Char.isDigit
        else false

/-! ### Data model (`app/pkg/database`, file `database.go`)

`KeyValue { Val string; Px int; T time.Time }` and
`StreamData { Stream *Stream; Px int; T time.Time }` with
`Stream { Entries []StreamEntry; LastID string; LastSeqNum int64 }` and
`StreamEntry { ID string; Fields map[string]string; Time time.Time }`.
The `Fields` map is an association list updated by replacement. -/

structure StreamEntry where
  id : String
  fields : List (String × String)
  time : Int
deriving DecidableEq, Repr

structure Stream where
  entries : List StreamEntry
  lastID : String
  lastSeqNum : Int
deriving DecidableEq, Repr

inductive Value where
  | kv (val : String) (px : Int) (t : Int)
  | streamData (stream : Stream) (px : Int) (t : Int)
deriving DecidableEq, Repr

/-- The keyspace `database.DB` (a `sync.Map`): association list, replace on store. -/
abbrev DB := List (String × Value)

/-- `DB.Store` — replaces an existing binding or appends a new one. -/
def dbStore (db : DB) (key : String) (v : Value) : DB :=
  match db with
  | [] => [(key, v)]
  | (k, w) :: rest => if k = key then (key, v) :: rest else (k, w) :: dbStore rest key v

/-- `DB.Load`. -/
def dbLoad (db : DB) (key : String) : Option Value :=
  match db with
  | [] => none
  | (k, w) :: rest => if k = key then some w else dbLoad rest key

/-- `database.SetKey(key, val, px)`: stores `KeyValue{Val: val, T: time.Now(), Px: px}`. -/
def SetKey (db : DB) (now : Int) (key val : String) (px : Int) : DB :=
  dbStore db key (.kv val px now)

/-- `database.GetKey(key)`: lazy-TTL read.  Absent, non-`KeyValue`, or expired
    (`Px ≠ -1 && time.Now().After(T.Add(Px ms))`, i.e. `now > t + px`) yields
    `("", false)`. -/
def GetKey (db : DB) (now : Int) (key : String) : String × Bool :=
  match dbLoad db key with
  | none => ("", false)
  | some (.streamData _ _ _) => ("", false)
  | some (.kv v px t) =>
    if px ≠ -1 ∧ now > t + px then ("", false) else (v, true)

/-- `database.GetType(key)`. -/
def GetType (db : DB) (now : Int) (key : String) : String × Bool :=
  match dbLoad db key with
  | none => ("", false)
  | some (.kv v px t) =>
    if px ≠ -1 ∧ now > t + px then ("", false)
    else if (atoiGo v).2 then ("integer", true)
    else if floatSyntaxOk v then ("float", true)
    else ("string", true)
  | some (.streamData _ px t) =>
    if px ≠ -1 ∧ now > t + px then ("", false)
    else ("stream", true)

/-- `database.Increment(key, by)`: absent or expired key is re-initialised to
    `by` with `Px = -1`; a live integer value is replaced by `Val+by` keeping
    `Px` but with `T = time.Now()` (the struct copy keeps `Px`, line
    `data.T = time.Now()` resets the creation instant). -/
def Increment (db : DB) (now : Int) (key : String) (incrBy : Int) : DB × String × Bool :=
  match dbLoad db key with
  | none =>
    let v := toString incrBy
    (dbStore db key (.kv v (-1) now), v, true)
  | some (.streamData _ _ _) => (db, "", false)
  | some (.kv v px t) =>
    if px ≠ -1 ∧ now > t + px then
      let v' := toString incrBy
      (dbStore db key (.kv v' (-1) now), v', true)
    else
      match atoiGo v with
      | (_, false) => (db, "", false)
      | (n, true) =>
        let v' := toString (n + incrBy)
        (dbStore db key (.kv v' px now), v', true)

/-! ### Stream store (`app/pkg/database/stream.go`) -/

/-- The freshly created stream value: `Entries: [], LastID: "0-0", LastSeqNum: 0`. -/
def emptyStream : Stream := { entries := [], lastID := "0-0", lastSeqNum := 0 }

/-- `database.GetOrCreateStream(key)`: creates (and **stores**) an empty stream
    when the key is absent or the stored stream has expired; returns `none`
    (Go `nil`) when the key holds a non-stream value. -/
def GetOrCreateStream (db : DB) (now : Int) (key : String) : DB × Option Stream :=
  match dbLoad db key with
  | none => (dbStore db key (.streamData emptyStream (-1) now), some emptyStream)
  | some (.kv _ _ _) => (db, none)
  | some (.streamData st px t) =>
    if px ≠ -1 ∧ now > t + px then
      (dbStore db key (.streamData emptyStream (-1) now), some emptyStream)
    else (db, some st)

/-- `database.compareStreamIDs(id1, id2)`: split each ID on `-`; anything that
    does not split into exactly two parts compares equal (0); otherwise compare
    `(ms, seq)` lexicographically.  Parse errors are ignored (`ms, _ :=
    strconv.ParseInt(...)`), leaving 0. -/
def compareStreamIDs (id1 id2 : String) : Int :=
  match splitOnDash id1, splitOnDash id2 with
  | [a1, b1], [a2, b2] =>
    let ms1 := (parseIntGo a1).1
    let seq1 := (parseIntGo b1).1
    let ms2 := (parseIntGo a2).1
    let seq2 := (parseIntGo b2).1
    if ms1 ≠ ms2 then (if ms1 > ms2 then 1 else -1)
    else if seq1 > seq2 then 1
    else if seq1 < seq2 then -1
    else 0
  | _, _ => 0

/-- `database.isValidStreamID(stream, id)`: `(ok, error message)`. -/
def isValidStreamID (stream : Stream) (id : String) : Bool × String :=
  if id = "0-0" ∧ stream.entries = [] then
    (false, "ERR The ID specified in XADD must be greater than 0-0")
  else if stream.entries = [] then
    if id = "0-0" then (false, "ERR The ID specified in XADD must be greater than 0-0")
    else (true, "")
  else if compareStreamIDs id stream.lastID > 0 then (true, "")
  else (false, "ERR The ID specified in XADD is equal or smaller than the target stream top item")

/-- `database.generateStreamID(stream, requestedID)` with
    `currentMs := time.Now().UnixMilli()` passed explicitly.

    Note the `"*"` branch: when `stream.LastSeqNum == 0` the code returns
    `currentMs-0` without ever looking at `LastID`.  In the two places where Go
    indexes `parts[1]` of a dashless `LastID` (an out-of-range panic) the
    embedding returns an error labelled `panic`; no reachable state in the
    theorems below has such a `LastID`. -/
def generateStreamID (stream : Stream) (currentMs : Int) (requestedID : String) :
    Except String String :=
  if requestedID = "*" then
    if stream.lastSeqNum = 0 then .ok (toString currentMs ++ "-0")
    else
      match splitOnDash stream.lastID with
      | p0 :: p1 :: _ =>
        let lastMs := (parseIntGo p0).1
        let lastSeq := (parseIntGo p1).1
        if currentMs > lastMs then .ok (toString currentMs ++ "-0")
        else if currentMs = lastMs then .ok (toString currentMs ++ "-" ++ toString (lastSeq + 1))
        else .ok (toString lastMs ++ "-" ++ toString (lastSeq + 1))
      | _ => .error "panic: index out of range"
  else if hasDashStarSuffix requestedID then
    let timestampPart := trimDashStarSuffix requestedID
    match parseIntGo timestampPart with
    | (_, false) => .error "ERR Invalid stream ID format"
    | (requestedMs, true) =>
      let zeroCase : Option (Except String String) :=
        if requestedMs = 0 then
          if stream.entries = [] then some (.ok "0-1")
          else
            match splitOnDash stream.lastID with
            | p0 :: p1 :: _ =>
              let lastMs := (parseIntGo p0).1
              let lastSeq := (parseIntGo p1).1
              if lastMs = 0 then some (.ok ("0-" ++ toString (lastSeq + 1)))
              else if lastMs > 0 then
                some (.error "ERR The ID specified in XADD is equal or smaller than the target stream top item")
              else none
            | _ => some (.error "panic: index out of range")
        else none
      match zeroCase with
      | some r => r
      | none =>
        if stream.entries = [] then .ok (timestampPart ++ "-0")
        else
          match splitOnDash stream.lastID with
          | p0 :: p1 :: _ =>
            let lastMs := (parseIntGo p0).1
            let lastSeq := (parseIntGo p1).1
            if requestedMs > lastMs then .ok (timestampPart ++ "-0")
            else if requestedMs = lastMs then .ok (timestampPart ++ "-" ++ toString (lastSeq + 1))
            else .error "ERR The ID specified in XADD is equal or smaller than the target stream top item"
          | _ => .error "panic: index out of range"
  else
    match isValidStreamID stream requestedID with
    | (false, e) => .error e
    | (true, _) => .ok requestedID

/-- The Go `fieldMap[fields[i]] = fields[i+1]` map insertion (replace on repeat). -/
def fieldMapStore (m : List (String × String)) (k v : String) : List (String × String) :=
  match m with
  | [] => [(k, v)]
  | (k', v') :: rest => if k' = k then (k, v) :: rest else (k', v') :: fieldMapStore rest k v

/-- The `for i := 0; i < len(fields); i += 2` loop building the field map. -/
def buildFieldMap (m : List (String × String)) : List String → List (String × String)
  | f :: v :: rest => buildFieldMap (fieldMapStore m f v) rest
  | _ => m

/-- `database.StreamAdd(key, id, fields)`.  Odd field count fails before any
    keyspace access; otherwise `GetOrCreateStream` runs (creating and storing an
    empty stream for an absent key) **before** the ID is validated, so an ID
    error still leaves the created stream behind.  On success the entry is
    appended, `LastID` is set, and `LastSeqNum` is re-parsed from the new ID.
    The new stream is stored back inside the `StreamData` whose `Px`/`T` fields
    are untouched (in Go the stream is mutated through a pointer). -/
def StreamAdd (db : DB) (now : Int) (key id : String) (fields : List String) :
    DB × Except String String :=
  if fields.length % 2 ≠ 0 then (db, .error "ERR wrong number of arguments for XADD")
  else
    match GetOrCreateStream db now key with
    | (db1, none) =>
      (db1, .error "ERR WRONGTYPE Operation against a key holding the wrong kind of value")
    | (db1, some stream) =>
      match generateStreamID stream now id with
      | .error e => (db1, .error e)
      | .ok entryID =>
        let entry : StreamEntry := { id := entryID, fields := buildFieldMap [] fields, time := now }
        let newSeq : Int :=
          match splitOnDash entryID with
          | [_, p1] => (parseIntGo p1).1
          | _ => stream.lastSeqNum
        let stream' : Stream :=
          { entries := stream.entries ++ [entry], lastID := entryID, lastSeqNum := newSeq }
        let db2 :=
          match dbLoad db1 key with
          | some (.streamData _ px t) => dbStore db1 key (.streamData stream' px t)
          | _ => db1
        (db2, .ok entryID)

/-! ### Wire protocol emitters (`app/internal/protocol/resp.go`) -/

/-- `protocol.EncodeArray(elements)`: `*<n>\r\n` then `$<len>\r\n<e>\r\n` per element. -/
def EncodeArray (elements : List String) : String :=
  "*" ++ toString elements.length ++ "\r\n" ++
    String.join (elements.map fun e => "$" ++ toString (goLen e) ++ "\r\n" ++ e ++ "\r\n")

/-- `protocol.FormatSimpleString` / `WriteSimpleString`: `+<s>\r\n`. -/
def FormatSimpleString (s : String) : String := "+" ++ s ++ "\r\n"

/-- `protocol.FormatBulkString` / `WriteBulkString`: `$<len>\r\n<s>\r\n`. -/
def FormatBulkString (s : String) : String := "$" ++ toString (goLen s) ++ "\r\n" ++ s ++ "\r\n"

/-- `protocol.FormatError` / `WriteError`: `-<msg>\r\n`. -/
def FormatError (msg : String) : String := "-" ++ msg ++ "\r\n"

/-- `protocol.FormatInteger` / `WriteInteger`: `:<i>\r\n`. -/
def FormatInteger (i : Int) : String := ":" ++ toString i ++ "\r\n"

/-! ### Command handlers (`app/internal/commands`, files `data.go` and `stream.go`)

A handler's observable behaviour is the new keyspace, the list of frames
written to the client connection, and the list of commands handed to
`ReplicateCommand`. -/

/-- `GetHandler.Handle`: missing/expired key → `$-1\r\n`; a found value is
    written with `WriteSimpleString` (a `+value\r\n` simple string, not a bulk
    string). -/
def GetHandler (db : DB) (now : Int) (args : List String) : List String :=
  if args.length < 1 then [FormatError ("wrong number of arguments for " ++ sq ++ "GET" ++ sq)]
  else
    let r := GetKey db now (args.getD 0 "")
    if r.2 = false then ["$-1\r\n"]
    else [FormatSimpleString r.1]

/-- `SetHandler.Handle`: arity check, then the replica guard
    (`!srv.IsMaster()` → `-READONLY ...` with no write and no replication),
    then `SetKey` and `ReplicateCommand`. -/
def SetHandler (isMaster : Bool) (db : DB) (now : Int) (args : List String) :
    DB × List String × List (List String) :=
  if args.length < 2 then
    (db, [FormatError ("wrong number of arguments for " ++ sq ++ "SET" ++ sq)], [])
  else if isMaster = false then
    (db, [FormatError ("READONLY You can" ++ sq ++ "t write against a read only replica.")], [])
  else
    let key := args.getD 0 ""
    let val := args.getD 1 ""
    let ms : Int :=
      if args.length = 4 ∧ toUpperGo (args.getD 2 "") = "PX" then (atoiGo (args.getD 3 "")).1
      else -1
    let db' := SetKey db now key val ms
    let command := if ms > -1 then ["SET", key, val, "PX", toString ms] else ["SET", key, val]
    (db', [FormatSimpleString "OK"], [command])

/-- `IncrHandler.Handle`.  The source has no replica guard here: the handler
    reads no role information at all, so its behaviour is identical on primary
    and replica.  It never calls `ReplicateCommand`. -/
def IncrHandler (db : DB) (now : Int) (args : List String) : DB × List String :=
  if args.length < 1 then
    (db, [FormatError ("wrong number of arguments for " ++ sq ++ "INCR" ++ sq)])
  else
    let key := args.getD 0 ""
    let incrBy : Int :=
      if args.length > 1 then
        match atoiGo (args.getD 1 "") with
        | (n, true) => n
        | (_, false) => 1
      else 1
    match Increment db now key incrBy with
    | (_, _, false) => (db, [FormatError "ERR value is not an integer or out of range"])
    | (db', resp, true) =>
      match atoiGo resp with
      | (_, false) => (db', [FormatError "failed to convert response to integer"])
      | (n, true) => (db', [FormatInteger n])

/-- `XAddHandler.Handle`.  Like `IncrHandler` it has no replica guard and never
    replicates.  `0-0` is rejected before `StreamAdd` runs. -/
def XAddHandler (db : DB) (now : Int) (args : List String) : DB × List String :=
  if args.length < 3 then
    (db, [FormatError ("ERR wrong number of arguments for " ++ sq ++ "XADD" ++ sq)])
  else
    let key := args.getD 0 ""
    let id := args.getD 1 ""
    if id = "0-0" then
      (db, [FormatError "ERR The ID specified in XADD must be greater than 0-0"])
    else
      match StreamAdd db now key id (args.drop 2) with
      | (db', .error e) => (db', [FormatError e])
      | (db', .ok entryID) => (db', [FormatBulkString entryID])

/-! ### WAIT (`app/internal/commands/server.go`, `WaitHandler.Handle`)

The handler's decision logic after argument parsing, with the replica registry
abstracted to the list of `ReplicaOffsets` values in registration order.  With
no replicas it replies `:0` at once.  Otherwise it sends `GETACK` to every
replica, seeds `acks` with the number of replicas whose recorded offset is
`<= 0` (the source compares against 0, not against the primary offset), and
then loops `for acks < count` over the ack channel and the timer.  Channel and
timer arrivals are modelled as a list of events; the timer ends the loop. -/

inductive WaitEv where
  | ack
  | timer
deriving DecidableEq, Repr

/-- The `acks := 0; for conn { if s.ReplicaOffsets[conn] <= 0 { acks++ } }` seed. -/
def waitInitialAcks (replicaOffsets : List Int) : Nat :=
  (replicaOffsets.filter fun o => o ≤ 0).length

/-- The `for acks < count { select { ack → acks++ | timer → break } }` loop. -/
def waitLoop (acks target : Int) : List WaitEv → Int
  | [] => acks
  | .ack :: rest => if acks < target then waitLoop (acks + 1) target rest else acks
  | .timer :: _ => acks

/-- The reply of `WaitHandler.Handle` on a primary, given the registered replica
    offsets, the requested `count`, and the ack/timer events observed while
    waiting; the boolean is true when the reply happens without entering a
    blocking wait (no replicas, or the seed count already meets `count`). -/
def WaitHandlerReply (replicaOffsets : List Int) (count : Int) (events : List WaitEv) :
    Int × Bool :=
  if replicaOffsets.length = 0 then (0, true)
  else
    let acks : Int := waitInitialAcks replicaOffsets
    if acks < count then (waitLoop acks count events, false) else (acks, true)

/-- Following the spec's words, for comparison: "Count replicas that are
    already caught up (`last_known_offset ≥ target`)" where `target` is the
    primary's current `replication_offset`. -/
def specCaughtUpCount (replicaOffsets : List Int) (target : Int) : Nat :=
  (replicaOffsets.filter fun o => o ≥ target).length

/-! ### Replica ingestion loop (`app/main.go`, `sendHandshake`, post-handshake)

One iteration of the `for` loop that consumes command frames from the primary:
`commandBytes := len(EncodeArray(args))`, then a switch on the upper-cased
command name.  `REPLCONF GETACK` replies `REPLCONF ACK <offset>` with the
offset **before** adding `commandBytes`; every other arm adds `commandBytes`
— except that a `REPLCONF` frame with fewer than two elements matches
`case "REPLCONF"` and then fails the `len(args) >= 2` guard, doing nothing. -/

def replicaIngestStep (db : DB) (offset : Int) (now : Int) (args : List String) :
    DB × Int × List (List String) :=
  if args.length = 0 then (db, offset, [])
  else
    let commandBytes : Int := goLen (EncodeArray args)
    let cmd := toUpperGo (args.getD 0 "")
    if cmd = "PING" then (db, offset + commandBytes, [])
    else if cmd = "SET" then
      let db' :=
        if args.length ≥ 3 then
          let key := args.getD 1 ""
          let val := args.getD 2 ""
          let ms : Int :=
            if args.length = 5 ∧ toUpperGo (args.getD 3 "") = "PX" then (atoiGo (args.getD 4 "")).1
            else -1
          SetKey db now key val ms
        else db
      (db', offset + commandBytes, [])
    else if cmd = "REPLCONF" then
      if args.length ≥ 2 then
        if toUpperGo (args.getD 1 "") = "GETACK" then
          (db, offset + commandBytes, [["REPLCONF", "ACK", toString offset]])
        else (db, offset + commandBytes, [])
      else (db, offset, [])
    else (db, offset + commandBytes, [])

/-! ### MULTI/EXEC (`app/internal/commands/transaction.go`, `ExecHandler`)

Per-connection transaction record and the EXEC path.  `executeCommand` is the
private switch the handler uses to run each queued command, returning a
pre-serialized reply frame. -/

instance : DecidableEq (Except String String) := fun a b =>
  match a, b with
  | .ok x, .ok y => if h : x = y then .isTrue (by rw [h]) else .isFalse (by simp [h])
  | .error x, .error y => if h : x = y then .isTrue (by rw [h]) else .isFalse (by simp [h])
  | .ok _, .error _ => .isFalse (by simp)
  | .error _, .ok _ => .isFalse (by simp)

structure TransactionGo where
  commands : List (String × List String)
  inTransaction : Bool
deriving DecidableEq, Repr

/-- `ExecHandler.executeSetCommand`. -/
def executeSetCommand (isMaster : Bool) (db : DB) (now : Int) (args : List String) :
    DB × String × List (List String) :=
  if args.length < 2 then
    (db, FormatError ("ERR wrong number of arguments for " ++ sq ++ "SET" ++ sq), [])
  else
    let key := args.getD 0 ""
    let val := args.getD 1 ""
    let ms : Int :=
      if args.length = 4 ∧ toUpperGo (args.getD 2 "") = "PX" then (atoiGo (args.getD 3 "")).1
      else -1
    let db' := SetKey db now key val ms
    let repl :=
      if isMaster then
        [if ms > -1 then ["SET", key, val, "PX", toString ms] else ["SET", key, val]]
      else []
    (db', "+OK\r\n", repl)

/-- `ExecHandler.executeGetCommand` (inside EXEC, GET does reply with a bulk string). -/
def executeGetCommand (db : DB) (now : Int) (args : List String) : String :=
  if args.length < 1 then FormatError ("ERR wrong number of arguments for " ++ sq ++ "GET" ++ sq)
  else
    let r := GetKey db now (args.getD 0 "")
    if r.2 = false then "$-1\r\n"
    else "$" ++ toString (goLen r.1) ++ "\r\n" ++ r.1 ++ "\r\n"

/-- `ExecHandler.executeIncrCommand`. -/
def executeIncrCommand (db : DB) (now : Int) (args : List String) : DB × String :=
  if args.length < 1 then
    (db, FormatError ("ERR wrong number of arguments for " ++ sq ++ "INCR" ++ sq))
  else
    match Increment db now (args.getD 0 "") 1 with
    | (_, _, false) => (db, FormatError "ERR value is not an integer or out of range")
    | (db', resp, true) =>
      match atoiGo resp with
      | (_, false) => (db', FormatError "ERR value is not an integer or out of range")
      | (n, true) => (db', ":" ++ toString n ++ "\r\n")

/-- `ExecHandler.executeEchoCommand`. -/
def executeEchoCommand (args : List String) : String :=
  if args.length < 1 then FormatError ("ERR wrong number of arguments for " ++ sq ++ "ECHO" ++ sq)
  else FormatBulkString (args.getD 0 "")

/-- `ExecHandler.executePingCommand`. -/
def executePingCommand (args : List String) : String :=
  if args.length = 0 then FormatSimpleString "PONG"
  else FormatBulkString (args.getD 0 "")

/-- `ExecHandler.executeCommand`: the switch over the queued command name.  A
    name outside SET/GET/ECHO/PING/INCR yields an error frame in its slot. -/
def executeCommand (isMaster : Bool) (db : DB) (now : Int) (cmd : String) (args : List String) :
    DB × String × List (List String) :=
  match toUpperGo cmd with
  | "SET" => executeSetCommand isMaster db now args
  | "GET" => (db, executeGetCommand db now args, [])
  | "ECHO" => (db, executeEchoCommand args, [])
  | "PING" => (db, executePingCommand args, [])
  | "INCR" =>
    let r := executeIncrCommand db now args
    (r.1, r.2, [])
  | _ => (db, FormatError ("ERR unknown command " ++ sq ++ cmd ++ sq), [])

/-- The `for _, queuedCmd := range queuedCommands` loop of `ExecHandler.Handle`:
    runs every queued command in order, collecting one reply frame per command;
    an error frame does not stop the loop. -/
def execCommandLoop (isMaster : Bool) (db : DB) (now : Int) :
    List (String × List String) → DB × List String × List (List String)
  | [] => (db, [], [])
  | (cmd, args) :: rest =>
    let r := executeCommand isMaster db now cmd args
    let rec' := execCommandLoop isMaster r.1 now rest
    (rec'.1, r.2.1 :: rec'.2.1, r.2.2 ++ rec'.2.2)

/-- `ExecHandler.Handle`: `-ERR EXEC without MULTI` when no transaction is
    active; otherwise run the queue, emit one `WriteArray2` frame
    (`*<n>\r\n` followed by the collected frames), and delete the transaction. -/
def ExecHandler (isMaster : Bool) (db : DB) (now : Int) (txn : Option TransactionGo) :
    DB × List String × Option TransactionGo :=
  match txn with
  | none => (db, [FormatError "ERR EXEC without MULTI"], txn)
  | some t =>
    if t.inTransaction = false then (db, [FormatError "ERR EXEC without MULTI"], txn)
    else
      let r := execCommandLoop isMaster db now t.commands
      (r.1, ["*" ++ toString r.2.1.length ++ "\r\n" ++ String.join r.2.1], none)

/-! ### Snapshot loader (`app/pkg/rdb/parser.go`)

The per-record actions of `ParseRDB` after the opcode and its payload have
been read from the byte stream (the byte-level string/length decoding lives in
`helpers.go` and is not needed by the properties below).  For a `0xFD` record
the code compares `time.Unix(secs, 0)` with `time.Now()` and, when still live,
calls `database.SetKey(key, val, int(secs))` — the raw unix-seconds timestamp
is passed as the millisecond TTL.  For `0xFC` it compares `time.UnixMilli(ms)`
and passes the raw unix-millisecond timestamp as the TTL. -/

inductive RDBRecord where
  | metadata (k v : String)
  | selectDB (idx : Int)
  | resizeDB (kvs exp : Int)
  | entry (k v : String)
  | entryExpireSeconds (secs : Int) (k v : String)
  | entryExpireMillis (ms : Int) (k v : String)
  | eofMark
deriving DecidableEq, Repr

/-- The effect of one `ParseRDB` record on the keyspace, at wall time `nowMs`
    (integer milliseconds; the `0xFD` deadline `time.Unix(secs, 0)` is the
    instant `secs * 1000`). -/
def parseRDBRecord (db : DB) (nowMs : Int) : RDBRecord → DB
  | .metadata _ _ => db
  | .selectDB _ => db
  | .resizeDB _ _ => db
  | .entry k v => SetKey db nowMs k v (-1)
  | .entryExpireSeconds secs k v =>
    if nowMs > secs * 1000 then db else SetKey db nowMs k v secs
  | .entryExpireMillis ms k v =>
    if nowMs > ms then db else SetKey db nowMs k v ms
  | .eofMark => db

/-! ### Helper lemmas -/

/-- Storing a key and loading it back yields the stored value. -/
theorem dbLoad_dbStore_self (db : DB) (key : String) (v : Value) :
    dbLoad (dbStore db key v) key = some v := by
  induction db with
  | nil => simp [dbStore, dbLoad]
  | cons p rest ih =>
    by_cases h : p.1 = key
    · simp [dbStore, dbLoad, h]
    · simp [dbStore, dbLoad, h, ih]

/-- `ExecHandler` collects exactly one reply frame per queued command. -/
theorem execCommandLoop_length (isMaster : Bool) (db : DB) (now : Int)
    (cmds : List (String × List String)) :
    (execCommandLoop isMaster db now cmds).2.1.length = cmds.length := by
  induction cmds generalizing db with
  | nil => rfl
  | cons c rest ih => simp [execCommandLoop, ih]

/-! ### Claim theorems -/

/-- C1: refuted on the code.  Two `XADD s *` calls in the same millisecond
    (the first creating the stream) both succeed and both return ID `5-0`:
    after the first append `LastSeqNum = 0`, so the `"*"` branch of
    `generateStreamID` short-circuits to `currentMs-0` without consulting
    `LastID`, and the second entry's ID equals — is not strictly greater
    than — the previous `last_id`. -/
theorem c1_xadd_auto_id_not_monotone :
    (StreamAdd [] 5 "s" "*" ["a", "b"]).2 = .ok "5-0" ∧
    (StreamAdd (StreamAdd [] 5 "s" "*" ["a", "b"]).1 5 "s" "*" ["c", "d"]).2 = .ok "5-0" ∧
    ¬ compareStreamIDs "5-0" "5-0" < 0 := by
  refine ⟨rfl, rfl, by decide⟩

/-- C2: refuted on the code.  The `WAIT` seed count tests
    `ReplicaOffsets[conn] <= 0` instead of `>= replication_offset`: with zero
    replicas the reply is `:0` immediately (as claimed), but with one replica
    whose recorded offset 174 equals the primary offset 174 the seed is 0, the
    handler enters the blocking loop, and on timeout replies `:0` — while the
    spec's caught-up count of that registry is 1. -/
theorem c2_wait_counts_nonpositive_not_caught_up :
    WaitHandlerReply [] 0 [] = (0, true) ∧
    waitInitialAcks [174] = 0 ∧
    WaitHandlerReply [174] 1 [WaitEv.timer] = (0, false) ∧
    specCaughtUpCount [174] 174 = 1 := by
  refine ⟨rfl, rfl, rfl, rfl⟩

/-- C3: refuted on the code.  On a replica, `SetHandler` does reply
    `-READONLY` and leaves the keyspace alone, but `IncrHandler` and
    `XAddHandler` consult no role information at all: `INCR k` on a replica
    creates the key and replies `:1`, and `XADD s * a b` creates the stream
    and replies with the bulk ID. -/
theorem c3_incr_xadd_not_guarded_on_replica :
    SetHandler false [] 0 ["k", "v"] =
      ([], [FormatError ("READONLY You can" ++ sq ++ "t write against a read only replica.")],
        []) ∧
    IncrHandler [] 0 ["k"] = ([("k", Value.kv "1" (-1) 0)], [FormatInteger 1]) ∧
    XAddHandler [] 5 ["s", "*", "a", "b"] =
      ([("s", Value.streamData
          { entries := [{ id := "5-0", fields := [("a", "b")], time := 5 }],
            lastID := "5-0", lastSeqNum := 0 }
          (-1) 5)],
        [FormatBulkString "5-0"]) := by
  refine ⟨rfl, rfl, rfl⟩

/-- C4: refuted on the code.  The loader does skip records whose absolute
    expiry has passed (first conjunct), but a live `0xFD` record's key is
    stored with `Px = secs` — the raw unix-seconds timestamp used as a
    millisecond TTL — and a live `0xFC` record's key with `Px = ms`, the raw
    absolute unix-millisecond timestamp; neither equals the remaining
    time-to-live. -/
theorem c4_rdb_ttl_stores_absolute_timestamp :
    parseRDBRecord [] 1760000000000 (.entryExpireSeconds 1000000000 "k" "v") = [] ∧
    parseRDBRecord [] 1760000000000 (.entryExpireSeconds 2000000000 "k" "v") =
      [("k", Value.kv "v" 2000000000 1760000000000)] ∧
    (2000000000 : Int) ≠ 2000000000 * 1000 - 1760000000000 ∧
    parseRDBRecord [] 1760000000000 (.entryExpireMillis 1760000100000 "k" "v") =
      [("k", Value.kv "v" 1760000100000 1760000000000)] ∧
    (1760000100000 : Int) ≠ 1760000100000 - 1760000000000 := by
  refine ⟨rfl, rfl, by decide, rfl, by decide⟩

/-- C5 counterexample: a `REPLCONF` frame with no subcommand is a command
    frame of 18 encoded bytes, yet the ingestion loop leaves the replica
    offset unchanged (the `case "REPLCONF"` arm requires `len(args) >= 2`
    before it touches the offset). -/
theorem c5_bare_replconf_frame_skips_offset :
    replicaIngestStep [] 100 0 ["REPLCONF"] = ([], 100, []) ∧
    goLen (EncodeArray ["REPLCONF"]) = 18 := by
  refine ⟨rfl, by decide⟩

/-- C8: refuted on the code.  `GetHandler` on a present, unexpired key writes
    the value with `WriteSimpleString` — `+bar\r\n`, not the bulk string
    `$3\r\nbar\r\n` — while a missing key does get the null bulk `$-1\r\n`. -/
theorem c8_get_replies_simple_string :
    GetHandler [("k", Value.kv "bar" (-1) 0)] 5 ["k"] = ["+bar\r\n"] ∧
    "+bar\r\n" ≠ "$3\r\nbar\r\n" ∧
    GetHandler [] 5 ["k"] = ["$-1\r\n"] := by
  refine ⟨rfl, by decide, rfl⟩

/-- C5 (amended): after the handshake, the replica's ingestion loop advances
    its offset by the encoded frame length of every nonempty command frame —
    unknown commands included — **except** a `REPLCONF` frame with fewer than
    two elements, which leaves the offset unchanged; and for `REPLCONF GETACK`
    the emitted `REPLCONF ACK <offset>` carries the offset from before the
    frame's bytes were added. -/
theorem c5_offset_advance_amended (db : DB) (offset now : Int) (args : List String)
    (hne : args ≠ [])
    (hrc : toUpperGo (args.getD 0 "") ≠ "REPLCONF" ∨ 2 ≤ args.length) :
    (replicaIngestStep db offset now args).2.1 = offset + goLen (EncodeArray args) ∧
    (toUpperGo (args.getD 0 "") = "REPLCONF" → toUpperGo (args.getD 1 "") = "GETACK" →
      (replicaIngestStep db offset now args).2.2 = [["REPLCONF", "ACK", toString offset]]) := by
  have h0 : ¬ args.length = 0 := fun h => hne (List.length_eq_zero.mp h)
  by_cases hping : toUpperGo (args.getD 0 "") = "PING"
  · refine ⟨?_, fun hrep _ => absurd (hping.symm.trans hrep) (by decide)⟩
    simp only [replicaIngestStep]
    rw [if_neg h0, if_pos hping]
  · by_cases hset : toUpperGo (args.getD 0 "") = "SET"
    · refine ⟨?_, fun hrep _ => absurd (hset.symm.trans hrep) (by decide)⟩
      simp only [replicaIngestStep]
      rw [if_neg h0, if_neg hping, if_pos hset]
    · by_cases hrep : toUpperGo (args.getD 0 "") = "REPLCONF"
      · have hl : args.length ≥ 2 := hrc.resolve_left (not_not_intro hrep)
        by_cases hga : toUpperGo (args.getD 1 "") = "GETACK"
        · refine ⟨?_, fun _ _ => ?_⟩ <;>
          · simp only [replicaIngestStep]
            rw [if_neg h0, if_neg hping, if_neg hset, if_pos hrep, if_pos hl, if_pos hga]
        · refine ⟨?_, fun _ hga2 => absurd hga2 hga⟩
          simp only [replicaIngestStep]
          rw [if_neg h0, if_neg hping, if_neg hset, if_pos hrep, if_pos hl, if_neg hga]
      · refine ⟨?_, fun h1 _ => absurd h1 hrep⟩
        simp only [replicaIngestStep]
        rw [if_neg h0, if_neg hping, if_neg hset, if_neg hrep]

/-- Witness for `c5_offset_advance_amended` at the concrete frame
    `REPLCONF GETACK *` (37 encoded bytes) arriving at offset 7. -/
theorem c5_offset_advance_amended_witness :
    (["REPLCONF", "GETACK", "*"] : List String) ≠ [] ∧
    (replicaIngestStep [] 7 0 ["REPLCONF", "GETACK", "*"]).2.1 = 7 + 37 ∧
    (replicaIngestStep [] 7 0 ["REPLCONF", "GETACK", "*"]).2.2 = [["REPLCONF", "ACK", "7"]] := by
  have h := c5_offset_advance_amended [] 7 0 ["REPLCONF", "GETACK", "*"]
    (by decide) (Or.inr (by decide))
  refine ⟨by decide, ?_, ?_⟩
  · rw [h.1]; decide
  · rw [h.2 (by decide) (by decide)]; decide

/-- C6: confirmed.  `EXEC` without an active `MULTI` replies
    `-ERR EXEC without MULTI`; with an active transaction it runs every queued
    command in order through the handler's non-transaction execution switch,
    collects one pre-serialized frame per command, emits `*<n>\r\n` followed by
    the concatenated frames, and deletes the transaction.  An individual
    failure (here an unknown command) produces an error frame in its slot
    without aborting the rest; the concrete scenario
    `MULTI; SET x 1; INCR x; EXEC` yields `*2\r\n+OK\r\n:2\r\n`. -/
theorem c6_exec_transaction (isMaster : Bool) (db : DB) (now : Int)
    (cmds : List (String × List String)) :
    ExecHandler isMaster db now none = (db, [FormatError "ERR EXEC without MULTI"], none) ∧
    ExecHandler isMaster db now (some { commands := cmds, inTransaction := false }) =
      (db, [FormatError "ERR EXEC without MULTI"],
        some { commands := cmds, inTransaction := false }) ∧
    ExecHandler isMaster db now (some { commands := cmds, inTransaction := true }) =
      ((execCommandLoop isMaster db now cmds).1,
        ["*" ++ toString cmds.length ++ "\r\n" ++
          String.join (execCommandLoop isMaster db now cmds).2.1],
        none) ∧
    (execCommandLoop isMaster db now cmds).2.1.length = cmds.length ∧
    ExecHandler true [] 0 (some ⟨[("SET", ["x", "1"]), ("INCR", ["x"])], true⟩) =
      ([("x", Value.kv "2" (-1) 0)], ["*2\r\n+OK\r\n:2\r\n"], none) ∧
    (ExecHandler true [] 0
        (some ⟨[("SET", ["x", "1"]), ("BOGUS", []), ("INCR", ["x"])], true⟩)).2.1 =
      ["*3\r\n+OK\r\n" ++ FormatError ("ERR unknown command " ++ sq ++ "BOGUS" ++ sq) ++
        ":2\r\n"] := by
  refine ⟨rfl, rfl, ?_, execCommandLoop_length isMaster db now cmds, by decide, by decide⟩
  simp [ExecHandler, execCommandLoop_length]

/-- C7 counterexample: `SET foo bar PX 100` at instant 0 followed by `GET foo`
    at instant 100 — a wall time equal to `set_time + t`, where the claim
    demands the null reply — still returns the value: the expiry test
    `time.Now().After(T.Add(Px))` is strict. -/
theorem c7_get_at_exact_deadline_returns_value :
    GetKey (SetKey [] 0 "foo" "bar" 100) 100 "foo" = ("bar", true) ∧
    ("bar", true) ≠ (("" : String), false) := by
  refine ⟨rfl, by decide⟩

/-- C7 (amended): for `SET k v PX t` at instant `t0`, a later `GET k` with no
    intervening write returns `v` at any wall time `≤ t0 + t` and the null
    reply at any wall time strictly greater than `t0 + t`. -/
theorem c7_ttl_boundary_amended (db : DB) (k v : String) (t0 px now : Int)
    (hpx : px ≠ -1) :
    GetKey (SetKey db t0 k v px) now k =
      if now > t0 + px then ("", false) else (v, true) := by
  unfold GetKey SetKey
  rw [dbLoad_dbStore_self]
  by_cases h : now > t0 + px
  · simp [h, hpx]
  · simp [h, hpx]

/-- Witness for `c7_ttl_boundary_amended`: `SET foo bar PX 100` at instant 0,
    read back at instants 100 and 101. -/
theorem c7_ttl_boundary_amended_witness :
    (100 : Int) ≠ -1 ∧
    GetKey (SetKey [] 0 "foo" "bar" 100) 100 "foo" = ("bar", true) ∧
    GetKey (SetKey [] 0 "foo" "bar" 100) 101 "foo" = ("", false) := by
  have h1 := c7_ttl_boundary_amended [] "foo" "bar" 0 100 100 (by decide)
  have h2 := c7_ttl_boundary_amended [] "foo" "bar" 0 100 101 (by decide)
  refine ⟨by decide, ?_, ?_⟩
  · rw [h1]; decide
  · rw [h2]; decide

/-- C9: confirmed.  `StreamAdd` on an absent key with an even field list first
    creates and stores an empty stream and only then resolves the ID; when the
    ID spec fails validation the error is returned but the empty stream stays
    in the keyspace, and `TYPE` on that key reports `stream`. -/
theorem c9_xadd_error_still_creates_stream (db : DB) (now : Int) (key id : String)
    (fields : List String) (e : String)
    (habs : dbLoad db key = none)
    (heven : fields.length % 2 = 0)
    (herr : generateStreamID emptyStream now id = .error e) :
    StreamAdd db now key id fields =
      (dbStore db key (.streamData emptyStream (-1) now), .error e) ∧
    GetType (dbStore db key (.streamData emptyStream (-1) now)) now key = ("stream", true) := by
  constructor
  · unfold StreamAdd GetOrCreateStream
    simp [heven, habs, herr]
  · unfold GetType
    rw [dbLoad_dbStore_self]
    simp [emptyStream]

/-- Witness for `c9_xadd_error_still_creates_stream`: `XADD s abc-* a 1` on an
    empty keyspace (the `abc-*` timestamp fails to parse). -/
theorem c9_xadd_error_still_creates_stream_witness :
    dbLoad ([] : DB) "s" = none ∧
    (["a", "1"] : List String).length % 2 = 0 ∧
    generateStreamID emptyStream 7 "abc-*" = .error "ERR Invalid stream ID format" ∧
    StreamAdd [] 7 "s" "abc-*" ["a", "1"] =
      (dbStore [] "s" (.streamData emptyStream (-1) 7), .error "ERR Invalid stream ID format") ∧
    GetType (dbStore [] "s" (.streamData emptyStream (-1) 7)) 7 "s" = ("stream", true) := by
  have h := c9_xadd_error_still_creates_stream [] 7 "s" "abc-*" ["a", "1"]
    "ERR Invalid stream ID format" rfl (by decide) (by decide)
  exact ⟨rfl, by decide, by decide, h.1, h.2⟩

/-- C10: confirmed.  `Increment` on a live key holding an integer keeps the
    stored `Px` but sets `T` to the increment instant, so the key's expiry
    deadline becomes `increment_time + ttl_ms`: the later `GetKey` treats the
    key as absent exactly at wall times strictly after `now + px`. -/
theorem c10_incr_resets_created_at (db : DB) (k v : String) (px t0 now n : Int)
    (hload : dbLoad db k = some (.kv v px t0))
    (hpx : px ≠ -1)
    (hlive : ¬ now > t0 + px)
    (hint : atoiGo v = (n, true)) :
    Increment db now k 1 =
      (dbStore db k (.kv (toString (n + 1)) px now), toString (n + 1), true) ∧
    ∀ now2 : Int,
      (GetKey (dbStore db k (.kv (toString (n + 1)) px now)) now2 k).2 = false ↔
        now2 > now + px := by
  constructor
  · unfold Increment
    rw [hload]
    simp [hlive, hint]
  · intro now2
    unfold GetKey
    rw [dbLoad_dbStore_self]
    by_cases h : now2 > now + px
    · simp [h, hpx]
    · simp [h, hpx]

/-- Witness for `c10_incr_resets_created_at`: key `k = "41"` with `Px = 500`
    created at instant 100, incremented at instant 300. -/
theorem c10_incr_resets_created_at_witness :
    dbLoad [("k", Value.kv "41" 500 100)] "k" = some (.kv "41" 500 100) ∧
    (500 : Int) ≠ -1 ∧
    ¬ (300 : Int) > 100 + 500 ∧
    atoiGo "41" = (41, true) ∧
    Increment [("k", Value.kv "41" 500 100)] 300 "k" 1 =
      ([("k", Value.kv "42" 500 300)], "42", true) ∧
    (GetKey [("k", Value.kv "42" 500 300)] 801 "k").2 = false := by
  have h := c10_incr_resets_created_at [("k", Value.kv "41" 500 100)] "k" "41" 500 100 300 41
    rfl (by decide) (by decide) (by decide)
  refine ⟨rfl, by decide, by decide, by decide, ?_, ?_⟩
  · rw [h.1]; decide
  · have h2 := (h.2 801).mpr (by decide)
    have hdb : dbStore [("k", Value.kv "41" 500 100)] "k" (.kv (toString ((41 : Int) + 1)) 500 300) =
        [("k", Value.kv "42" 500 300)] := by decide
    rw [hdb] at h2
    exact h2

end RedisClone
